import Mathlib

/-!
Verification of `elgato_prompter_text_cli`.

This file gives a shallow embedding, in Lean 4, of the pure logic of the two
Python source files `elgato_prompter_text.py` and
`elgato_prompter_text_cli/restarter.py`, and proves (or refutes) a list of
claims about them.

External OS effects (Spotlight queries, PowerShell invocations, process
tables, the filesystem) are modelled as explicit environment records whose
fields hold the text/values those external calls would return; every other
part of the embedded functions follows the Python source line by line.
-/

namespace Elgato

/-! ## Python string primitives

Python strings are sequences of code points; they are modelled through
`String.data : List Char`.  (The core `String` functions work on UTF-8 byte
positions and are opaque to kernel reduction, so the embedding defines the
handful of Python string operations the sources use directly on the
character list.  `lower`/`upper` are modelled on the ASCII range, which is
where every string the program manipulates lives.) -/

/-- Python `s.lower()` (ASCII model). -/
def pyLower (s : String) : String :=
  ⟨s.data.map Char.toLower⟩

/-- Python `s.upper()` (ASCII model). -/
def pyUpper (s : String) : String :=
  ⟨s.data.map Char.toUpper⟩

/-- Python `s.startswith(pre)`. -/
def pyStartsWith (s pre : String) : Bool :=
  pre.data.isPrefixOf s.data

/-- Python `needle in s` (substring containment). -/
def pyIn (needle s : String) : Bool :=
  s.data.tails.any (fun t => needle.data.isPrefixOf t)

/-- Python `s.endswith(suf)`. -/
def pyEndsWith (s suf : String) : Bool :=
  suf.data.isSuffixOf s.data

/-! ## `elgato_prompter_text.py`: `slugify` -/

/-- The characters kept by the regex class `[a-z0-9]` in `slugify`:
ASCII lower-case letters and ASCII digits. -/
def isSlugChar (c : Char) : Bool :=
  c.isLower || c.isDigit

/-- Scan for `re.sub(r"[^a-z0-9]+", "-", value)`: `inRun` records whether
the previous character belonged to a (not yet closed) run of characters
outside `[a-z0-9]`; each maximal such run emits a single hyphen. -/
def collapseAux : Bool → List Char → List Char
  | _, [] => []
  | inRun, c :: cs =>
    if isSlugChar c then c :: collapseAux false cs
    else if inRun then collapseAux true cs
    else '-' :: collapseAux true cs

/-- Model of `re.sub(r"[^a-z0-9]+", "-", value)`: each maximal run of
characters outside `[a-z0-9]` is replaced by a single hyphen. -/
def collapseNonSlug (l : List Char) : List Char :=
  collapseAux false l

/-- Drop the characters satisfying `q` from the right end (the shape of a
Python `rstrip`). -/
def rstripBy (q : Char → Bool) (l : List Char) : List Char :=
  (l.reverse.dropWhile q).reverse

/-- Python `value.strip()` on the character list: drop whitespace from both
ends. -/
def pyStripWs (l : List Char) : List Char :=
  rstripBy Char.isWhitespace (l.dropWhile Char.isWhitespace)

/-- Python `value.strip("-")`: drop hyphens from both ends. -/
def stripDash (l : List Char) : List Char :=
  rstripBy (· == '-') (l.dropWhile (· == '-'))

/-- Python `value.rstrip("-")`: drop hyphens from the right end. -/
def rstripDash (l : List Char) : List Char :=
  rstripBy (· == '-') l

/-- `slugify` from `elgato_prompter_text.py`:

```python
def slugify(value, max_len=48):
    value = value.strip().lower()
    value = re.sub(r"[^a-z0-9]+", "-", value)
    value = value.strip("-")
    if len(value) > max_len:
        value = value[:max_len].rstrip("-")
    return value or "prompt"
```
-/
def slugify (value : String) (max_len : Nat) : String :=
  let v1 := (pyStripWs value.data).map Char.toLower
  let v2 := collapseNonSlug v1
  let v3 := stripDash v2
  let v4 := if v3.length > max_len then rstripDash (v3.take max_len) else v3
  if v4.isEmpty then "prompt" else String.mk v4

/-- The pair relation "not both hyphens"; a list with `Chain' noDD` has no
two consecutive hyphens. -/
def noDD (a b : Char) : Prop :=
  ¬(a = '-' ∧ b = '-')

/-! ## `elgato_prompter_text.py`: `settings_add_guid`

The settings file holds a JSON object; `settings_add_guid` reads the value
stored under `applogic.prompter.libraryList` (treating a missing key or a
non-list value as the empty list), upper-cases the guid, appends it when
absent, and stores the list back.  The stored value is modelled as
`Option (List String)`: `none` stands for a missing key or a non-list value.
-/

/-- The list transformation performed by `settings_add_guid`:

```python
lst = settings.get(SETTINGS_KEY)
if not isinstance(lst, list):
    lst = []
guid_up = guid.upper()
if guid_up not in lst:
    lst.append(guid_up)
settings[SETTINGS_KEY] = lst
```
-/
def settings_add_guid (stored : Option (List String)) (guid : String) : List String :=
  let lst := stored.getD []
  let guid_up := pyUpper guid
  if guid_up ∈ lst then lst else lst ++ [guid_up]

/-! ## `restarter.py`: data model

A Python exception is identified by its type and message, which is what the
claims compare. -/

structure PyExc where
  ty : String
  msg : String
deriving DecidableEq

/-- `AppRestarter._launch_info`: `("mac", bundle_id)` on macOS,
`("win", mode, target)` on Windows. -/
inductive LaunchInfo where
  | mac (bundleId : String)
  | win (mode : String) (target : String)
deriving DecidableEq

/-- The state an `AppRestarter` holds between `__enter__` and `__exit__`:
`_should_restart` and `_launch_info`. -/
structure Session where
  shouldRestart : Bool
  launchInfo : Option LaunchInfo
deriving DecidableEq

/-! ## `restarter.py`: macOS locator (`mac_mdfind_app`) -/

/-- Python `s.split(sep)` for a one-character separator. -/
def splitOnChar (sep : Char) : List Char → List (List Char)
  | [] => [[]]
  | c :: cs =>
    let r := splitOnChar sep cs
    if c == sep then [] :: r
    else
      match r with
      | [] => [[c]]
      | h :: t => (c :: h) :: t

/-- `pathlib.Path(p).name`: the final path component. -/
def pathName (p : String) : String :=
  ⟨(splitOnChar '/' p.data).getLastD []⟩

/-- `pathlib.Path(p).stem`: the final component with its last extension
removed; a dot in first position or in last position does not start an
extension (CPython: `name[:i]` when `0 < i < len(name) - 1` for
`i = name.rfind('.')`). -/
def pathStem (p : String) : String :=
  let name := pathName p
  match name.data.reverse.findIdx? (· == '.') with
  | none => name
  | some j =>
    let i := name.length - 1 - j
    if 0 < i ∧ i < name.length - 1 then ⟨name.data.take i⟩ else name

/-- The sort key of one `.app` hit inside `mac_mdfind_app`:

```python
return (
    2 if (path_str.startswith("/Applications/") or path_str.startswith("/System/Applications/")) else 0,
    2 if name.startswith(s) else 0,
    1 if s in name else 0,
    -len(path_str),
)
```
where `s = search.lower()` and `name = p.stem.lower()`. -/
def macScore (s : String) (p : String) : Nat × Nat × Nat × Int :=
  let path_str := p
  let name := pyLower (pathStem p)
  ( if pyStartsWith path_str "/Applications/" || pyStartsWith path_str "/System/Applications/"
      then 2 else 0,
    if pyStartsWith name s then 2 else 0,
    if pyIn s name then 1 else 0,
    -(path_str.data.length : Int) )

/-- Python tuple comparison (lexicographic `≤`) on the 4-component scores. -/
def scoreLe (a b : Nat × Nat × Nat × Int) : Bool :=
  if a.1 ≠ b.1 then decide (a.1 < b.1)
  else if a.2.1 ≠ b.2.1 then decide (a.2.1 < b.2.1)
  else if a.2.2.1 ≠ b.2.2.1 then decide (a.2.2.1 < b.2.2.1)
  else decide (a.2.2.2 ≤ b.2.2.2)

/-- The sort order of `hits.sort(key=score, reverse=True)`: `a` comes
before `b` when the score of `a` is at least the score of `b` (`s` is the
lowered search text). -/
def macSortRel (s : String) (a b : String) : Prop :=
  scoreLe (macScore s b) (macScore s a) = true

instance (s : String) : DecidableRel (macSortRel s) :=
  fun _ _ => instDecidableEqBool _ _

/-- `mac_mdfind_app`: filter the `mdfind` output lines down to `.app`
bundles, return `None` when there are none, otherwise sort descending by
`macScore` and return the first hit.  Python's `hits.sort(key=score,
reverse=True)` is a stable descending sort; any two stable sorts of the
same list under the same total preorder coincide, so it is modelled by the
(stable) `insertionSort` on the flipped score order.  `mdfindLines` holds
the lines printed by the Spotlight query. -/
def mac_mdfind_app (search : String) (mdfindLines : List String) : Option String :=
  let hits := mdfindLines.filter (fun p => pyEndsWith p ".app")
  let s := pyLower search
  match hits.insertionSort (macSortRel s) with
  | [] => none
  | best :: _ => some best

/-! ## `restarter.py`: `AppRestarter.__enter__` -/

/-- Results of the external queries `__enter__` makes on macOS. -/
structure MacEnv where
  mdfindLines : List String
  bundleIdFor : String → String
  countRunning : String → Nat

/-- `AppRestarter.__enter__` on macOS.  Returns the session state on
success and the `RuntimeError` message on failure.  Quitting the running
app is an external effect with no bearing on the session state. -/
def macEnter (env : MacEnv) (search : String) (restart_if_not_running : Bool) :
    Except String Session :=
  match mac_mdfind_app search env.mdfindLines with
  | none => .error ("[macOS] Could not find any application matching: " ++ search)
  | some app_path =>
    let bid := env.bundleIdFor app_path
    if bid = "" ∨ bid = "(null)" then
      .error ("[macOS] Could not determine bundle id for: " ++ app_path)
    else if env.countRunning bid > 0 then
      .ok { shouldRestart := true, launchInfo := some (.mac bid) }
    else
      .ok { shouldRestart := restart_if_not_running, launchInfo := some (.mac bid) }

/-- Whether the macOS `__enter__` would observe the target running: the
process count (for the bundle id of the located app) is positive. -/
def macWasRunning (env : MacEnv) (search : String) : Bool :=
  match mac_mdfind_app search env.mdfindLines with
  | none => false
  | some p => decide (env.countRunning (env.bundleIdFor p) > 0)

/-- Results of the external queries `__enter__` makes on Windows:
the pids matched by `win_find_running_pids`, the per-pid result of
`win_exec_path_for_pid` (never `some ""`), and the stdout of the Start-Menu
shortcut script and of the `Get-StartApps` script. -/
structure WinEnv where
  runningPids : List Nat
  exePathForPid : Nat → Option String
  lnkTargetOut : String
  uwpAppIdOut : String

/-- Python `s.strip()` as a whole-string operation. -/
def pyStripStr (s : String) : String :=
  ⟨pyStripWs s.data⟩

/-- Python truthiness of an `Optional[str]`: `None` and `""` are falsy. -/
def optTruthy : Option String → Bool
  | none => false
  | some s => !s.data.isEmpty

/-- The `for pid in pids` loop of `__enter__` on Windows: the first pid
whose `win_exec_path_for_pid` result is truthy supplies
`exe_from_running`. -/
def firstExePath (f : Nat → Option String) : List Nat → Option String
  | [] => none
  | pid :: rest => if optTruthy (f pid) then f pid else firstExePath f rest

/-- `win_resolve_launch_target`: resolution order is (1) executable path
captured from a running instance, (2) Start-Menu `.lnk` target, (3) UWP
AppUserModelID, (4) bare name for `Start-Process` to resolve. -/
def win_resolve_launch_target (env : WinEnv) (search : String)
    (fallback_from_pid : Option String) : String × String :=
  if optTruthy fallback_from_pid then ("exe", fallback_from_pid.getD "")
  else
    let lnk_target := pyStripStr env.lnkTargetOut
    if !lnk_target.data.isEmpty then ("exe", lnk_target)
    else
      let appid := pyStripStr env.uwpAppIdOut
      if !appid.data.isEmpty then ("uwp", appid)
      else ("alias", search)

/-- `AppRestarter.__enter__` on Windows.  It cannot fail once PowerShell is
available: with no running pids it keeps `restart_if_not_running` and the
launch-target resolution always produces a plan (worst case the `alias`
fallback). -/
def winEnter (env : WinEnv) (search : String) (restart_if_not_running : Bool) :
    Except String Session :=
  let pids := env.runningPids
  if pids.isEmpty then
    let r := win_resolve_launch_target env search none
    .ok { shouldRestart := restart_if_not_running
          launchInfo := some (.win r.1 r.2) }
  else
    let exe_from_running := firstExePath env.exePathForPid pids
    let r := win_resolve_launch_target env search exe_from_running
    .ok { shouldRestart := true, launchInfo := some (.win r.1 r.2) }

/-! ## `restarter.py`: lifecycle controllers (`win_quit_pids`, `mac_quit_app`) -/

/-- Record of the external actions performed by `win_quit_pids`. -/
structure WinQuitActions where
  closeRequested : List Nat
  forceKilled : List Nat
deriving DecidableEq

/-- The polling loop of `win_quit_pids`: `aliveAt t pid` is what
`win_is_pid_alive pid` reports at the `t`-th poll, and `fuel` is how many
polls fit before the deadline.  Returns the poll index at which every pid
was seen dead, or `none` when the deadline passes first. -/
def winQuitPoll (aliveAt : Nat → Nat → Bool) (pids : List Nat) :
    Nat → Nat → Option Nat
  | _, 0 => none
  | t, fuel + 1 =>
    if (pids.filter (fun pid => aliveAt t pid)).isEmpty then some t
    else winQuitPoll aliveAt pids (t + 1) fuel

/-- `win_quit_pids`: return at once on an empty pid list; otherwise request
`CloseMainWindow` on every pid, poll until all are dead or the deadline
passes, and after the deadline (with `force_after_timeout`) feed the
ORIGINAL `pids` list — not the still-alive subset — to the
`Stop-Process -Force` script. -/
def win_quit_pids (pids : List Nat) (numPolls : Nat) (force_after_timeout : Bool)
    (aliveAt : Nat → Nat → Bool) : WinQuitActions :=
  if pids.isEmpty then { closeRequested := [], forceKilled := [] }
  else
    match winQuitPoll aliveAt pids 0 numPolls with
    | some _ => { closeRequested := pids, forceKilled := [] }
    | none =>
      { closeRequested := pids
        forceKilled := if force_after_timeout then pids else [] }

/-- Results of the external queries `mac_quit_app` makes: the process count
seen at the `t`-th poll and the pids `mac_pids_for` reports once the
deadline has passed. -/
structure MacQuitEnv where
  countAt : Nat → Nat
  pidsAtTimeout : List Nat

/-- Record of the external actions performed by `mac_quit_app`: the
AppleScript quit request (always sent) and the pids passed to
`os.kill(pid, 9)`. -/
structure MacQuitActions where
  quitRequested : Bool
  killed : List Nat
deriving DecidableEq

/-- The polling loop of `mac_quit_app`. -/
def macQuitPoll (countAt : Nat → Nat) : Nat → Nat → Option Nat
  | _, 0 => none
  | t, fuel + 1 =>
    if countAt t = 0 then some t else macQuitPoll countAt (t + 1) fuel

/-- `mac_quit_app`: send the AppleScript quit, poll the process count until
it reaches zero or the deadline passes, then (with `force_after_timeout`)
`os.kill` every pid `mac_pids_for` still reports
(`ProcessLookupError` is swallowed per pid). -/
def mac_quit_app (env : MacQuitEnv) (numPolls : Nat) (force_after_timeout : Bool) :
    MacQuitActions :=
  { quitRequested := true
    killed :=
      match macQuitPoll env.countAt 0 numPolls with
      | some _ => []
      | none => if force_after_timeout then env.pidsAtTimeout else [] }

/-! ## `restarter.py`: `AppRestarter.__exit__` and the `with` statement -/

/-- Outcome of the `try` body of `__exit__`: it can execute `return False`,
fall off the end, or raise (when the relaunch raises). -/
inductive BodyOutcome where
  | ret (b : Bool)
  | completed
  | raised (e : PyExc)
deriving DecidableEq

/-- Outcome of the whole `__exit__` call as seen by the `with` machinery:
either a returned suppression flag or an exception. -/
inductive ExitResult where
  | returns (b : Bool)
  | raises (e : PyExc)
deriving DecidableEq

/-- The `try` body of `AppRestarter.__exit__`: return `False` early unless
`_should_restart` and `_launch_info` are both truthy, else perform the one
launch.  `launchExc li` is the exception (if any) that
`mac_launch_app` / `win_launch` raises for that plan; the returned list
records which launches were attempted. -/
def exitTryBody (s : Session) (launchExc : LaunchInfo → Option PyExc) :
    List LaunchInfo × BodyOutcome :=
  if !s.shouldRestart || s.launchInfo.isNone then ([], .ret false)
  else
    match s.launchInfo with
    | none => ([], .ret false)
    | some li =>
      match launchExc li with
      | some e => ([li], .raised e)
      | none => ([li], .completed)

/-- Python semantics of `try: ... finally: return False`: a `return`
executed in the `finally` block discards whatever the `try` body did — a
pending return value and even an in-flight exception. -/
def tryFinallyReturnFalse (body : BodyOutcome) : ExitResult :=
  match body with
  | _ => .returns false

/-- `AppRestarter.__exit__`: which launches are attempted, and the call's
outcome. -/
def appRestarterExit (s : Session) (launchExc : LaunchInfo → Option PyExc) :
    List LaunchInfo × ExitResult :=
  let r := exitTryBody s launchExc
  (r.1, tryFinallyReturnFalse r.2)

/-- Python `with` statement wrap-up: if `__exit__` raises, that exception
propagates; otherwise a truthy return value suppresses the body's
exception and a falsy one re-raises it unchanged. -/
def withBlockResult (bodyExc : Option PyExc) (ex : ExitResult) : Option PyExc :=
  match ex with
  | .raises e => some e
  | .returns suppress => if suppress then none else bodyExc

/-! ## Theorems -/

/-- Claim C2: whatever exception the caller's work inside the `AppRestarter`
scope raises, the very same exception (same type and message) is what the
invoker of the `with` block observes after exit, for every relaunch
behaviour — including a relaunch that itself raises; the scope never
suppresses, converts or wraps it. -/
theorem caller_exception_propagates_unchanged
    (s : Session) (launchExc : LaunchInfo → Option PyExc) (e : PyExc) :
    withBlockResult (some e) (appRestarterExit s launchExc).2 = some e := by
  simp [appRestarterExit, tryFinallyReturnFalse, withBlockResult]

/-- Claim C3: `AppRestarter.__exit__` never raises — the `return False` in its
`finally` block discards any error the relaunch raised — so a relaunch
failure is never propagated to the caller of the `with` block, whether or
not the caller's work raised. -/
theorem relaunch_errors_swallowed
    (s : Session) (launchExc : LaunchInfo → Option PyExc) :
    (appRestarterExit s launchExc).2 = .returns false ∧
    ∀ bodyExc : Option PyExc,
      withBlockResult bodyExc (appRestarterExit s launchExc).2 = bodyExc := by
  refine ⟨rfl, fun bodyExc => ?_⟩
  simp [appRestarterExit, tryFinallyReturnFalse, withBlockResult]

/-- Claim C5 counterexample: with pids `[111, 222]` where 111 has already
exited and 222 stays alive past the deadline, the force-kill script is fed
`[111, 222]` — not only the still-alive `[222]` the claim asserts. -/
theorem win_quit_force_kills_exited_pid_too :
    (win_quit_pids [111, 222] 2 true (fun _ pid => pid == 222)).forceKilled
      = [111, 222] ∧
    (win_quit_pids [111, 222] 2 true (fun _ pid => pid == 222)).forceKilled
      ≠ [222] := by
  decide

/-- Claim C5 amended: on a non-empty pid list, `win_quit_pids` requests a
graceful close of every pid, and when the deadline passes with some pid
still alive and `force_after_timeout` is true it force-terminates the FULL
ORIGINAL pid list (already-exited pids included; per-pid termination
failures are swallowed by the script); if every pid exits before the
deadline, or the force flag is off, nothing is force-terminated. -/
theorem win_quit_force_targets_original_pids
    (pids : List Nat) (numPolls : Nat) (force : Bool) (aliveAt : Nat → Nat → Bool)
    (h : pids ≠ []) :
    (win_quit_pids pids numPolls force aliveAt).closeRequested = pids ∧
    (win_quit_pids pids numPolls force aliveAt).forceKilled =
      (if winQuitPoll aliveAt pids 0 numPolls = none ∧ force = true
        then pids else []) := by
  unfold win_quit_pids
  cases hp : winQuitPoll aliveAt pids 0 numPolls <;> cases force <;>
    simp [h, hp]

/-- Claim C5 amended, witness: the amended statement evaluated on the concrete
scenario of the counterexample. -/
theorem win_quit_force_targets_original_pids_witness :
    (win_quit_pids [111, 222] 2 true (fun _ pid => pid == 222)).forceKilled =
      (if winQuitPoll (fun _ pid => pid == 222) [111, 222] 0 2 = none ∧ true = true
        then [111, 222] else []) :=
  (win_quit_force_targets_original_pids [111, 222] 2 true
    (fun _ pid => pid == 222) (by decide)).2

/-- Claim C6: stopping a target with zero running instances is a no-op: on
Windows an empty pid list returns at once with no close request and no
force-kill, and on macOS a process count that is already zero (so
`mac_pids_for` reports no pids either) leads to no `os.kill` at all;
neither function can raise in this situation. -/
theorem stop_noop_on_zero_instances
    (numPolls : Nat) (force : Bool) (aliveAt : Nat → Nat → Bool) (env : MacQuitEnv)
    (_hcount : ∀ t, env.countAt t = 0) (hpids : env.pidsAtTimeout = []) :
    win_quit_pids [] numPolls force aliveAt
      = { closeRequested := [], forceKilled := [] } ∧
    (mac_quit_app env numPolls force).killed = [] := by
  refine ⟨by simp [win_quit_pids], ?_⟩
  unfold mac_quit_app
  cases hm : macQuitPoll env.countAt 0 numPolls <;> cases force <;>
    simp [hm, hpids]

/-- Claim C6 witness: the statement evaluated with zero instances on both
platforms. -/
theorem stop_noop_on_zero_instances_witness :
    win_quit_pids [] 3 true (fun _ _ => true)
      = { closeRequested := [], forceKilled := [] } ∧
    (mac_quit_app ⟨fun _ => 0, []⟩ 3 true).killed = [] :=
  stop_noop_on_zero_instances 3 true (fun _ _ => true) ⟨fun _ => 0, []⟩
    (fun _ => rfl) rfl

/-- Claim C7: with a non-empty captured executable path from a previously
running instance, `win_resolve_launch_target` returns the `("exe", path)`
plan with exactly that path, whatever the environment holds (a matching
Start-Menu shortcut or installed package included); with no captured path
it falls through in the fixed order shortcut target, then package identity,
then bare name. -/
theorem resolve_prefers_captured_exe_path (env : WinEnv) (search : String) :
    (∀ p : String, p.data ≠ [] →
      win_resolve_launch_target env search (some p) = ("exe", p)) ∧
    win_resolve_launch_target env search none =
      (if (pyStripStr env.lnkTargetOut).data ≠ [] then
        ("exe", pyStripStr env.lnkTargetOut)
      else if (pyStripStr env.uwpAppIdOut).data ≠ [] then
        ("uwp", pyStripStr env.uwpAppIdOut)
      else ("alias", search)) := by
  constructor
  · intro p hp
    simp [win_resolve_launch_target, optTruthy, hp]
  · by_cases h1 : (pyStripStr env.lnkTargetOut).data = [] <;>
      by_cases h2 : (pyStripStr env.uwpAppIdOut).data = [] <;>
      simp [win_resolve_launch_target, optTruthy, h1, h2]

/-- Claim C7 witness: the captured path wins even though a shortcut target
exists in the environment. -/
theorem resolve_prefers_captured_exe_path_witness :
    win_resolve_launch_target ⟨[], fun _ => none, "shortcut-target", ""⟩ "chrome"
      (some "C:/prog.exe") = ("exe", "C:/prog.exe") :=
  (resolve_prefers_captured_exe_path ⟨[], fun _ => none, "shortcut-target", ""⟩
    "chrome").1 "C:/prog.exe" (by decide)

/-- Claim C10: `settings_add_guid` is idempotent and duplicate-free on the
library list: with the uppercased guid already present the list is
unchanged; without it the uppercased guid is appended exactly once at the
end; re-applying the operation changes nothing further, and any entry that
occurred at most once keeps occurring at most once. -/
theorem settings_add_guid_idempotent_dupfree
    (stored : Option (List String)) (guid : String) :
    (pyUpper guid ∈ stored.getD [] →
      settings_add_guid stored guid = stored.getD []) ∧
    (pyUpper guid ∉ stored.getD [] →
      settings_add_guid stored guid = stored.getD [] ++ [pyUpper guid]) ∧
    settings_add_guid (some (settings_add_guid stored guid)) guid
      = settings_add_guid stored guid ∧
    (settings_add_guid stored guid).count (pyUpper guid)
      = max ((stored.getD []).count (pyUpper guid)) 1 ∧
    ∀ g : String, (stored.getD []).count g ≤ 1 →
      (settings_add_guid stored guid).count g ≤ 1 := by
  by_cases h : pyUpper guid ∈ stored.getD []
  · have he : settings_add_guid stored guid = stored.getD [] := by
      simp [settings_add_guid, h]
    have hc : 1 ≤ (stored.getD []).count (pyUpper guid) :=
      List.one_le_count_iff.mpr h
    refine ⟨fun _ => he, fun hn => absurd h hn, ?_, ?_, ?_⟩
    · simp [he, settings_add_guid, h]
    · rw [he]
      omega
    · intro g hg
      rw [he]
      exact hg
  · have he : settings_add_guid stored guid = stored.getD [] ++ [pyUpper guid] := by
      simp [settings_add_guid, h]
    have hc : (stored.getD []).count (pyUpper guid) = 0 :=
      List.count_eq_zero.mpr h
    refine ⟨fun hm => absurd hm h, fun _ => he, ?_, ?_, ?_⟩
    · rw [he]
      have hm : pyUpper guid ∈ stored.getD [] ++ [pyUpper guid] := by
        simp
      simp [settings_add_guid, hm]
    · rw [he, List.count_append]
      simp [hc]
    · intro g hg
      rw [he, List.count_append]
      by_cases hgg : g = pyUpper guid
      · subst hgg
        simp [hc]
      · have : List.count g [pyUpper guid] = 0 := by
          simp [List.count_singleton]
          exact fun hh => absurd hh.symm hgg
        omega

/-- Claim C10 witness: both branches evaluated on concrete lists. -/
theorem settings_add_guid_witness :
    settings_add_guid (some ["B", "A"]) "a" = ["B", "A"] ∧
    settings_add_guid (some ["B"]) "a" = ["B", "A"] :=
  ⟨(settings_add_guid_idempotent_dupfree (some ["B", "A"]) "a").1 (by decide),
   (settings_add_guid_idempotent_dupfree (some ["B"]) "a").2.1 (by decide)⟩

/-- After a successful `__enter__`, `_launch_info` is set, so `__exit__`
attempts exactly one launch when `_should_restart` is true and none
otherwise. -/
theorem exit_attempts_iff_shouldRestart
    (s : Session) (launchExc : LaunchInfo → Option PyExc)
    (h : s.launchInfo.isSome = true) :
    (appRestarterExit s launchExc).1.length ≤ 1 ∧
    ((appRestarterExit s launchExc).1 ≠ [] ↔ s.shouldRestart = true) := by
  obtain ⟨li, hli⟩ := Option.isSome_iff_exists.mp h
  cases hsr : s.shouldRestart <;> cases hE : launchExc li <;>
    simp [appRestarterExit, exitTryBody, hli, hsr, hE]

/-- Claim C1: on both platforms, a scope entry that succeeds sets
`_should_restart` to true when the target was observed running and to the
`restart_if_not_running` flag when it was not (equivalently:
`wasRunning || flag`); `_launch_info` is always set, and on exit exactly
one relaunch is attempted when `_should_restart` is true and none
otherwise — so a session relaunches at most once and only under one of the
two conditions. -/
theorem restart_flag_matches_entry_observation (search : String) (flag : Bool) :
    (∀ (env : MacEnv) (s : Session), macEnter env search flag = .ok s →
      s.shouldRestart = (macWasRunning env search || flag) ∧
      s.launchInfo.isSome = true ∧
      ∀ launchExc : LaunchInfo → Option PyExc,
        (appRestarterExit s launchExc).1.length ≤ 1 ∧
        ((appRestarterExit s launchExc).1 ≠ [] ↔ s.shouldRestart = true)) ∧
    (∀ (env : WinEnv) (s : Session), winEnter env search flag = .ok s →
      s.shouldRestart = (!env.runningPids.isEmpty || flag) ∧
      s.launchInfo.isSome = true ∧
      ∀ launchExc : LaunchInfo → Option PyExc,
        (appRestarterExit s launchExc).1.length ≤ 1 ∧
        ((appRestarterExit s launchExc).1 ≠ [] ↔ s.shouldRestart = true)) := by
  constructor
  · intro env s h
    unfold macEnter at h
    cases hM : mac_mdfind_app search env.mdfindLines with
    | none =>
      rw [hM] at h
      exact absurd h (by simp)
    | some p =>
      rw [hM] at h
      dsimp only at h
      by_cases hb : env.bundleIdFor p = "" ∨ env.bundleIdFor p = "(null)"
      · rw [if_pos hb] at h
        exact absurd h (by simp)
      · rw [if_neg hb] at h
        by_cases hr : env.countRunning (env.bundleIdFor p) > 0
        · rw [if_pos hr] at h
          injection h with h
          subst h
          refine ⟨?_, rfl, fun launchExc =>
            exit_attempts_iff_shouldRestart _ launchExc rfl⟩
          unfold macWasRunning
          rw [hM]
          simp [hr]
        · rw [if_neg hr] at h
          injection h with h
          subst h
          refine ⟨?_, rfl, fun launchExc =>
            exit_attempts_iff_shouldRestart _ launchExc rfl⟩
          unfold macWasRunning
          rw [hM]
          simp [hr]
  · intro env s h
    unfold winEnter at h
    by_cases hp : env.runningPids.isEmpty
    · rw [if_pos hp] at h
      injection h with h
      subst h
      exact ⟨by simp [hp], rfl, fun launchExc =>
        exit_attempts_iff_shouldRestart _ launchExc rfl⟩
    · rw [if_neg hp] at h
      injection h with h
      subst h
      exact ⟨by simp [Bool.not_eq_true _ ▸ hp], rfl, fun launchExc =>
        exit_attempts_iff_shouldRestart _ launchExc rfl⟩

/-- Claim C1 witness: a concrete macOS entry with the app running, and a
concrete Windows entry with no running pids; the hypotheses evaluate by
`rfl`. -/
theorem restart_flag_matches_entry_observation_witness :
    ({ shouldRestart := true,
       launchInfo := some (.mac "com.apple.Safari") } : Session).shouldRestart
      = (macWasRunning
          ⟨["/Applications/Safari.app"], fun _ => "com.apple.Safari", fun _ => 1⟩
          "safari" || false) ∧
    ({ shouldRestart := false,
       launchInfo := some (.win "alias" "zzz") } : Session).shouldRestart
      = (!([] : List Nat).isEmpty || false) := by
  have hmac := (restart_flag_matches_entry_observation "safari" false).1
    ⟨["/Applications/Safari.app"], fun _ => "com.apple.Safari", fun _ => 1⟩
    { shouldRestart := true, launchInfo := some (.mac "com.apple.Safari") } rfl
  have hwin := (restart_flag_matches_entry_observation "zzz" false).2
    ⟨[], fun _ => none, "", ""⟩
    { shouldRestart := false, launchInfo := some (.win "alias" "zzz") } rfl
  exact ⟨hmac.1, hwin.1⟩

/-- Claim C4 counterexample: on Windows, with a search string matching zero
running instances and zero installed applications (no shortcut, no
package), `__enter__` SUCCEEDS — the claim asserts it must raise on both
platforms.  The scope becomes active with the bare-name fallback plan; with
the default `restart_if_not_running = False` no relaunch is attempted on
exit. -/
theorem win_enter_succeeds_on_no_match :
    winEnter ⟨[], fun _ => none, "", ""⟩ "chrome" false
      = .ok { shouldRestart := false, launchInfo := some (.win "alias" "chrome") } ∧
    (appRestarterExit
        { shouldRestart := false, launchInfo := some (.win "alias" "chrome") }
        (fun _ => none)).1 = [] :=
  ⟨rfl, rfl⟩

/-- Claim C4 amended: when the search matches nothing, the behaviour is
platform-specific.  On macOS, `__enter__` raises before any caller work
can run (the scope never becomes active, so no relaunch can be attempted).
On Windows, `__enter__` succeeds with the bare-name (`alias`) fallback plan
and `_should_restart = restart_if_not_running`, so with the default flag no
relaunch is attempted. -/
theorem enter_not_found_behaviour (search : String) (flag : Bool) :
    (∀ env : MacEnv, env.mdfindLines.filter (fun p => pyEndsWith p ".app") = [] →
      macEnter env search flag
        = .error ("[macOS] Could not find any application matching: " ++ search)) ∧
    (∀ env : WinEnv, env.runningPids = [] →
      (pyStripStr env.lnkTargetOut).data = [] →
      (pyStripStr env.uwpAppIdOut).data = [] →
      winEnter env search flag
        = .ok { shouldRestart := flag, launchInfo := some (.win "alias" search) }) := by
  constructor
  · intro env hfilter
    unfold macEnter mac_mdfind_app
    rw [hfilter]
    rfl
  · intro env hpids hlnk huwp
    unfold winEnter win_resolve_launch_target
    simp [hpids, hlnk, huwp, optTruthy]

/-- Claim C4 amended, witness: both branches evaluated on concrete
environments. -/
theorem enter_not_found_behaviour_witness :
    macEnter ⟨["not-an-app-line"], fun _ => "", fun _ => 0⟩ "ghostapp" false
      = .error ("[macOS] Could not find any application matching: " ++ "ghostapp") ∧
    winEnter ⟨[], fun _ => none, " ", ""⟩ "ghostapp" false
      = .ok { shouldRestart := false, launchInfo := some (.win "alias" "ghostapp") } :=
  ⟨(enter_not_found_behaviour "ghostapp" false).1
      ⟨["not-an-app-line"], fun _ => "", fun _ => 0⟩ (by decide),
   (enter_not_found_behaviour "ghostapp" false).2
      ⟨[], fun _ => none, " ", ""⟩ rfl (by decide) (by decide)⟩

/-- `scoreLe` is the lexicographic order on score tuples. -/
theorem scoreLe_iff (a b : Nat × Nat × Nat × Int) :
    scoreLe a b = true ↔
      (a.1 < b.1 ∨ (a.1 = b.1 ∧
        (a.2.1 < b.2.1 ∨ (a.2.1 = b.2.1 ∧
          (a.2.2.1 < b.2.2.1 ∨ (a.2.2.1 = b.2.2.1 ∧
            a.2.2.2 ≤ b.2.2.2)))))) := by
  obtain ⟨a1, a2, a3, a4⟩ := a
  obtain ⟨b1, b2, b3, b4⟩ := b
  simp only [scoreLe]
  split_ifs with h1 h2 h3 <;> simp only [decide_eq_true_eq] <;> omega

/-- `scoreLe` is reflexive. -/
theorem scoreLe_refl (a : Nat × Nat × Nat × Int) : scoreLe a a = true := by
  rw [scoreLe_iff]
  omega

/-- `scoreLe` is total. -/
theorem scoreLe_total (a b : Nat × Nat × Nat × Int) :
    scoreLe a b = true ∨ scoreLe b a = true := by
  rw [scoreLe_iff, scoreLe_iff]
  omega

/-- `scoreLe` is transitive. -/
theorem scoreLe_trans (a b c : Nat × Nat × Nat × Int)
    (hab : scoreLe a b = true) (hbc : scoreLe b c = true) :
    scoreLe a c = true := by
  rw [scoreLe_iff] at hab hbc ⊢
  omega

/-- Claim C8: `mac_mdfind_app` returns `None` exactly when the `mdfind`
output has no `.app`-suffixed hit, and otherwise returns a hit that is
maximal in the lexicographic scoring order (`macScore`: standard install
directory, stem starts with the search text, search text inside the stem,
shorter full path). -/
theorem locator_returns_max_scoring_hit (search : String) (mdfindLines : List String) :
    (mac_mdfind_app search mdfindLines = none ↔
      mdfindLines.filter (fun p => pyEndsWith p ".app") = []) ∧
    ∀ best, mac_mdfind_app search mdfindLines = some best →
      best ∈ mdfindLines.filter (fun p => pyEndsWith p ".app") ∧
      ∀ q ∈ mdfindLines.filter (fun p => pyEndsWith p ".app"),
        scoreLe (macScore (pyLower search) q) (macScore (pyLower search) best)
          = true := by
  have hits := mdfindLines.filter (fun p => pyEndsWith p ".app")
  haveI : IsTotal String (macSortRel (pyLower search)) :=
    ⟨fun a b => scoreLe_total (macScore (pyLower search) b)
      (macScore (pyLower search) a)⟩
  haveI : IsTrans String (macSortRel (pyLower search)) :=
    ⟨fun _ _ _ hab hbc => scoreLe_trans _ _ _ hbc hab⟩
  have hperm := List.perm_insertionSort (macSortRel (pyLower search))
    (mdfindLines.filter (fun p => pyEndsWith p ".app"))
  have hsorted := List.sorted_insertionSort (macSortRel (pyLower search))
    (mdfindLines.filter (fun p => pyEndsWith p ".app"))
  have hgoal : mac_mdfind_app search mdfindLines =
      match (mdfindLines.filter (fun p => pyEndsWith p ".app")).insertionSort
          (macSortRel (pyLower search)) with
      | [] => none
      | best :: _ => some best := rfl
  cases hs : (mdfindLines.filter (fun p => pyEndsWith p ".app")).insertionSort
      (macSortRel (pyLower search)) with
  | nil =>
    rw [hs] at hperm hgoal
    constructor
    · simp [hgoal, List.Perm.eq_nil hperm.symm]
    · intro best hbest
      rw [hgoal] at hbest
      exact absurd hbest (by simp)
  | cons top rest =>
    rw [hs] at hperm hsorted hgoal
    constructor
    · constructor
      · intro hnone
        rw [hgoal] at hnone
        exact absurd hnone (by simp)
      · intro hnil
        rw [hnil] at hperm
        exact absurd (List.Perm.eq_nil hperm) (by simp)
    · intro best hbest
      rw [hgoal] at hbest
      injection hbest with hbest
      subst hbest
      have hmem : top ∈ top :: rest := List.mem_cons_self top rest
      refine ⟨hperm.subset hmem, fun q hq => ?_⟩
      have hq' : q ∈ top :: rest := (hperm.mem_iff).mpr hq
      rcases List.mem_cons.mp hq' with hq'' | hq''
      · rw [hq'']
        exact scoreLe_refl _
      · exact (List.pairwise_cons.mp hsorted).1 q hq''

/-- Claim C8 witness: a concrete `mdfind` output with two `.app` hits and one
non-bundle line; the maximal hit is the Safari bundle. -/
theorem locator_returns_max_scoring_hit_witness :
    mac_mdfind_app "saf" ["/x/z.app", "/Applications/Safari.app", "junk"]
      = some "/Applications/Safari.app" ∧
    "/Applications/Safari.app"
      ∈ ["/x/z.app", "/Applications/Safari.app", "junk"].filter
          (fun p => pyEndsWith p ".app") ∧
    ∀ q ∈ ["/x/z.app", "/Applications/Safari.app", "junk"].filter
        (fun p => pyEndsWith p ".app"),
      scoreLe (macScore (pyLower "saf") q)
        (macScore (pyLower "saf") "/Applications/Safari.app") = true := by
  refine ⟨by decide, ?_⟩
  exact (locator_returns_max_scoring_hit "saf"
    ["/x/z.app", "/Applications/Safari.app", "junk"]).2
    "/Applications/Safari.app" (by decide)

/-- `dropWhile` never lengthens a list. -/
theorem dropWhile_length_le {α : Type} (q : α → Bool) (l : List α) :
    (l.dropWhile q).length ≤ l.length := by
  induction l with
  | nil => simp [List.dropWhile]
  | cons a t ih =>
    rw [List.dropWhile_cons]
    split
    · exact Nat.le_succ_of_le ih
    · exact Nat.le_refl _

/-- The head surviving a `dropWhile` fails the predicate. -/
theorem dropWhile_head_false {α : Type} (q : α → Bool) :
    ∀ (l : List α) (d : α) (ds : List α), l.dropWhile q = d :: ds → q d = false := by
  intro l
  induction l with
  | nil =>
    intro d ds h
    simp [List.dropWhile] at h
  | cons a t ih =>
    intro d ds h
    rw [List.dropWhile_cons] at h
    split at h
    · exact ih d ds h
    · rename_i hq
      cases h
      simpa using hq

/-- The head surviving a `dropWhile` fails the predicate (in `head?`
form). -/
theorem dropWhile_head?_false {α : Type} (q : α → Bool) (l : List α) (c : α)
    (h : (l.dropWhile q).head? = some c) : q c = false := by
  cases hd : l.dropWhile q with
  | nil =>
    rw [hd] at h
    simp at h
  | cons d ds =>
    rw [hd] at h
    simp only [List.head?_cons, Option.some.injEq] at h
    have hf := dropWhile_head_false q l d ds hd
    rwa [h] at hf

/-- A slug character is not a hyphen. -/
theorem slug_ne_dash {c : Char} (h : isSlugChar c = true) : c ≠ '-' := by
  intro heq
  subst heq
  exact absurd h (by decide)

/-- Every character the collapse scan emits is a slug character or a
hyphen. -/
theorem collapseAux_chars :
    ∀ (l : List Char) (b : Bool), ∀ c ∈ collapseAux b l,
      isSlugChar c = true ∨ c = '-' := by
  intro l
  induction l with
  | nil =>
    intro b c hc
    simp [collapseAux] at hc
  | cons c cs ih =>
    intro b d hd
    rw [collapseAux] at hd
    by_cases hslug : isSlugChar c = true
    · rw [if_pos hslug] at hd
      rcases List.mem_cons.mp hd with rfl | hd'
      · exact Or.inl hslug
      · exact ih false d hd'
    · rw [if_neg hslug] at hd
      cases b with
      | true => exact ih true d hd
      | false =>
        rw [if_neg (by simp)] at hd
        rcases List.mem_cons.mp hd with rfl | hd'
        · exact Or.inr rfl
        · exact ih true d hd'

/-- Inside a run (`inRun = true`), the next character the scan emits is a
slug character, never a hyphen. -/
theorem collapseAux_true_head :
    ∀ (l : List Char) (c : Char), (collapseAux true l).head? = some c →
      isSlugChar c = true := by
  intro l
  induction l with
  | nil =>
    intro c hc
    simp [collapseAux] at hc
  | cons a cs ih =>
    intro c hc
    rw [collapseAux] at hc
    by_cases hslug : isSlugChar a = true
    · rw [if_pos hslug] at hc
      simp only [List.head?_cons, Option.some.injEq] at hc
      rwa [hc] at hslug
    · rw [if_neg hslug, if_pos rfl] at hc
      exact ih c hc

/-- The collapse scan never emits two consecutive hyphens. -/
theorem collapseAux_chain :
    ∀ (l : List Char) (b : Bool), (collapseAux b l).Chain' noDD := by
  intro l
  induction l with
  | nil =>
    intro b
    simp [collapseAux]
  | cons c cs ih =>
    intro b
    rw [collapseAux]
    by_cases hslug : isSlugChar c = true
    · rw [if_pos hslug, List.chain'_cons']
      exact ⟨fun y _ hpair => slug_ne_dash hslug hpair.1, ih false⟩
    · rw [if_neg hslug]
      cases b with
      | true => exact ih true
      | false =>
        rw [if_neg (by simp), List.chain'_cons']
        refine ⟨?_, ih true⟩
        intro y hy hpair
        exact slug_ne_dash (collapseAux_true_head cs y hy) hpair.2

/-- `Chain' noDD` survives reversal (the relation is symmetric). -/
theorem chain_noDD_reverse {l : List Char} (h : l.Chain' noDD) :
    l.reverse.Chain' noDD :=
  List.chain'_reverse.mpr (h.imp fun _ _ hab hba => hab ⟨hba.2, hba.1⟩)

/-- `rstripBy q l` is a leading part of `l`. -/
theorem rstripBy_leading (q : Char → Bool) (l : List Char) :
    ∃ t, rstripBy q l ++ t = l := by
  obtain ⟨s, hs⟩ := List.dropWhile_suffix (l := l.reverse) q
  refine ⟨s.reverse, ?_⟩
  unfold rstripBy
  have h := congrArg List.reverse hs
  rw [List.reverse_append, List.reverse_reverse] at h
  exact h

/-- A non-empty leading part has the same head. -/
theorem head?_eq_of_leading {α : Type} {l₁ t l₂ : List α}
    (h : l₁ ++ t = l₂) (hne : l₁ ≠ []) : l₂.head? = l₁.head? := by
  subst h
  cases l₁ with
  | nil => exact absurd rfl hne
  | cons a l => simp

/-- What `rstripBy` keeps of the head. -/
theorem rstripBy_head (q : Char → Bool) (l : List Char) (c : Char)
    (h : (rstripBy q l).head? = some c) : l.head? = some c := by
  obtain ⟨t, ht⟩ := rstripBy_leading q l
  have hne : rstripBy q l ≠ [] := by
    intro h0
    rw [h0] at h
    simp at h
  rw [head?_eq_of_leading ht hne, h]

/-- The last character kept by `rstripBy` fails the predicate. -/
theorem rstripBy_last (q : Char → Bool) (l : List Char) (c : Char)
    (h : (rstripBy q l).getLast? = some c) : q c = false := by
  unfold rstripBy at h
  rw [List.getLast?_reverse] at h
  cases hd : l.reverse.dropWhile q with
  | nil =>
    rw [hd] at h
    simp at h
  | cons d ds =>
    rw [hd] at h
    simp only [List.head?_cons, Option.some.injEq] at h
    have hf := dropWhile_head_false q l.reverse d ds hd
    rwa [h] at hf

/-- `rstripBy` never lengthens a list. -/
theorem rstripBy_length_le (q : Char → Bool) (l : List Char) :
    (rstripBy q l).length ≤ l.length := by
  unfold rstripBy
  rw [List.length_reverse]
  calc (l.reverse.dropWhile q).length ≤ l.reverse.length :=
        dropWhile_length_le q l.reverse
    _ = l.length := List.length_reverse l

/-- Heads of `take` come from the list. -/
theorem head?_take {α : Type} (n : Nat) (l : List α) (c : α)
    (h : (l.take n).head? = some c) : l.head? = some c := by
  cases l with
  | nil => simp at h
  | cons a t =>
    cases n with
    | zero => simp at h
    | succ m => simpa using h

/-- A `Chain' noDD` list has no `"--"` infix. -/
theorem not_dd_infix {l : List Char} (h : l.Chain' noDD) :
    ¬ ['-', '-'] <:+: l := by
  intro hinf
  have hc := List.Chain'.infix h hinf
  exact (List.chain'_pair.mp hc) ⟨rfl, rfl⟩

/-- With no slug character in sight, the scan in run state emits nothing. -/
theorem collapseAux_true_all_nonslug :
    ∀ l : List Char, (∀ c ∈ l, isSlugChar c = false) →
      collapseAux true l = [] := by
  intro l
  induction l with
  | nil => intro _; rfl
  | cons c cs ih =>
    intro h
    rw [collapseAux,
      if_neg (by simp [h c (List.mem_cons_self c cs)]), if_pos rfl]
    exact ih fun x hx => h x (List.mem_cons_of_mem c hx)

/-- `collapseNonSlug` of a list with no slug character is `[]` or `["-"]`. -/
theorem collapse_all_nonslug {l : List Char}
    (h : ∀ c ∈ l, isSlugChar c = false) :
    collapseNonSlug l = [] ∨ collapseNonSlug l = ['-'] := by
  cases l with
  | nil => exact Or.inl rfl
  | cons c cs =>
    unfold collapseNonSlug
    rw [collapseAux, if_neg (by simp [h c (List.mem_cons_self c cs)]),
      if_neg (by simp)]
    rw [collapseAux_true_all_nonslug cs fun x hx => h x (List.mem_cons_of_mem c hx)]
    exact Or.inr rfl

/-- A character whose lower-casing is a slug character was alphanumeric. -/
theorem isAlphanum_of_isSlugChar_toLower (c : Char)
    (h : isSlugChar (Char.toLower c) = true) : c.isAlphanum = true := by
  have h' : isSlugChar
      (if c.toNat ≥ 65 ∧ c.toNat ≤ 90 then Char.ofNat (c.toNat + 32) else c)
        = true := h
  split at h'
  · rename_i hcond
    have hu : c.isUpper = true := by
      simp only [Char.isUpper]
      rw [Bool.and_eq_true]
      exact ⟨decide_eq_true hcond.1, decide_eq_true hcond.2⟩
    simp [Char.isAlphanum, Char.isAlpha, hu]
  · simp only [isSlugChar, Bool.or_eq_true] at h'
    simp only [Char.isAlphanum, Char.isAlpha, Bool.or_eq_true]
    tauto

/-- Claim C9: for every input string, `slugify` at the default
`max_len = 48` returns a non-empty string of at most 48 characters made
only of ASCII lower-case letters, digits and hyphens, with no leading
hyphen, no trailing hyphen and no two consecutive hyphens; an input with
no ASCII-alphanumeric character yields exactly `"prompt"`. -/
theorem slugify_shape (s : String) :
    slugify s 48 ≠ "" ∧
    (slugify s 48).data.length ≤ 48 ∧
    (∀ c ∈ (slugify s 48).data, c.isLower = true ∨ c.isDigit = true ∨ c = '-') ∧
    (slugify s 48).data.head? ≠ some '-' ∧
    (slugify s 48).data.getLast? ≠ some '-' ∧
    ¬ ['-', '-'] <:+: (slugify s 48).data ∧
    ((∀ c ∈ s.data, c.isAlphanum = false) → slugify s 48 = "prompt") := by
  have hv3chars :
      ∀ c ∈ stripDash (collapseNonSlug ((pyStripWs s.data).map Char.toLower)),
        isSlugChar c = true ∨ c = '-' := by
    intro c hc
    unfold stripDash rstripBy at hc
    have h1 := List.mem_reverse.mp hc
    have h2 := (List.dropWhile_suffix _).subset h1
    have h3 := List.mem_reverse.mp h2
    have h4 := (List.dropWhile_suffix _).subset h3
    exact collapseAux_chars _ false c h4
  have hv3chain :
      (stripDash (collapseNonSlug ((pyStripWs s.data).map Char.toLower))).Chain'
        noDD := by
    unfold stripDash rstripBy
    exact chain_noDD_reverse (List.Chain'.suffix
      (chain_noDD_reverse (List.Chain'.suffix (collapseAux_chain _ false)
        (List.dropWhile_suffix _))) (List.dropWhile_suffix _))
  have hv3head :
      ∀ c, (stripDash (collapseNonSlug
          ((pyStripWs s.data).map Char.toLower))).head? = some c → c ≠ '-' := by
    intro c hc
    unfold stripDash at hc
    have h1 := rstripBy_head _ _ _ hc
    have h2 := dropWhile_head?_false (· == '-') _ _ h1
    simpa using h2
  have hv3last :
      ∀ c, (stripDash (collapseNonSlug
          ((pyStripWs s.data).map Char.toLower))).getLast? = some c → c ≠ '-' := by
    intro c hc
    unfold stripDash at hc
    have h1 := rstripBy_last _ _ _ hc
    simpa using h1
  set v3 := stripDash (collapseNonSlug ((pyStripWs s.data).map Char.toLower))
    with hv3def
  set v4 := (if v3.length > 48 then rstripDash (v3.take 48) else v3) with hv4def
  have hres : slugify s 48 = if v4.isEmpty then "prompt" else ⟨v4⟩ := by
    rw [hv4def, hv3def]
    rfl
  have hv4chars : ∀ c ∈ v4, isSlugChar c = true ∨ c = '-' := by
    rw [hv4def]
    split
    · intro c hc
      unfold rstripDash rstripBy at hc
      have h1 := List.mem_reverse.mp hc
      have h2 := (List.dropWhile_suffix _).subset h1
      have h3 := List.mem_reverse.mp h2
      exact hv3chars c (List.take_subset _ _ h3)
    · exact hv3chars
  have hv4chain : v4.Chain' noDD := by
    rw [hv4def]
    split
    · unfold rstripDash rstripBy
      exact chain_noDD_reverse (List.Chain'.suffix
        (chain_noDD_reverse (List.Chain'.take hv3chain 48))
        (List.dropWhile_suffix _))
    · exact hv3chain
  have hv4head : ∀ c, v4.head? = some c → c ≠ '-' := by
    rw [hv4def]
    split
    · intro c hc
      unfold rstripDash at hc
      have h1 := rstripBy_head _ _ _ hc
      exact hv3head c (head?_take _ _ _ h1)
    · exact hv3head
  have hv4last : ∀ c, v4.getLast? = some c → c ≠ '-' := by
    rw [hv4def]
    split
    · intro c hc
      unfold rstripDash at hc
      have h1 := rstripBy_last _ _ _ hc
      simpa using h1
    · exact hv3last
  have hv4len : v4.length ≤ 48 := by
    rw [hv4def]
    split
    · calc (rstripDash (v3.take 48)).length
          ≤ (v3.take 48).length := rstripBy_length_le _ _
        _ ≤ 48 := by rw [List.length_take]; omega
    · omega
  have hprompt : (∀ c ∈ s.data, c.isAlphanum = false) → v4 = [] := by
    intro H
    have hns : ∀ c ∈ (pyStripWs s.data).map Char.toLower,
        isSlugChar c = false := by
      intro c hcm
      obtain ⟨d, hd, rfl⟩ := List.mem_map.mp hcm
      have hdm : d ∈ s.data := by
        unfold pyStripWs rstripBy at hd
        have h1 := List.mem_reverse.mp hd
        have h2 := (List.dropWhile_suffix _).subset h1
        have h3 := List.mem_reverse.mp h2
        exact (List.dropWhile_suffix _).subset h3
      cases hS : isSlugChar (Char.toLower d) with
      | false => rfl
      | true =>
        exact absurd (isAlphanum_of_isSlugChar_toLower d hS)
          (by simp [H d hdm])
    have hv3nil : v3 = [] := by
      rw [hv3def]
      rcases collapse_all_nonslug hns with h0 | h0 <;> rw [h0] <;> rfl
    rw [hv4def, hv3nil]
    simp
  rw [hres]
  by_cases hemp : v4.isEmpty
  · rw [if_pos hemp]
    refine ⟨by decide, by decide, by decide, by decide, by decide, ?_,
      fun _ => rfl⟩
    apply not_dd_infix
    rw [List.chain'_cons, List.chain'_cons, List.chain'_cons,
      List.chain'_cons, List.chain'_cons]
    refine ⟨?_, ?_, ?_, ?_, ?_, List.chain'_singleton _⟩ <;>
      exact fun hpair => absurd hpair.1 (by decide)
  · rw [if_neg hemp]
    have hne : v4 ≠ [] := by
      intro h0
      rw [h0] at hemp
      exact hemp rfl
    refine ⟨?_, ?_, ?_, ?_, ?_, ?_, ?_⟩
    · intro h
      apply hne
      have hdata := congrArg String.data h
      simpa using hdata
    · exact hv4len
    · intro c hc
      rcases hv4chars c hc with h | h
      · simp only [isSlugChar, Bool.or_eq_true] at h
        rcases h with h' | h'
        · exact Or.inl h'
        · exact Or.inr (Or.inl h')
      · exact Or.inr (Or.inr h)
    · intro h
      exact hv4head '-' h rfl
    · intro h
      exact hv4last '-' h rfl
    · exact not_dd_infix hv4chain
    · intro H
      exact absurd (hprompt H) hne

/-- Claim C9 witness: the no-alphanumeric hypothesis evaluated on a concrete
input. -/
theorem slugify_shape_witness : slugify "***" 48 = "prompt" :=
  (slugify_shape "***").2.2.2.2.2.2 (by decide)

end Elgato

